import Mathlib

/-!
Verification of the jessyink-converter core pipeline (src/core.py, src/cli.py)
via a shallow embedding in Lean 4.

The embedding mirrors the Python source:
* `PresentationInfo` is the dictionary returned by `_analyze_presentation`
  (`type` field made into a sum type, `data` payload attached per variant).
* `generateSteps` is `_generate_steps`.
* `convertPresentation` is `convert_presentation`, modelled as a pure
  function over an `Env` that fixes the outcome of each effectful operation
  (browser launch, page load, per-step navigation, PDF assembly); it returns
  the emitted event trace, the final result, and the final state of the
  output location.
* `processFiles` / `mainExitCode` model the batch CLI in src/cli.py, with
  each file's conversion outcome injected as data.
-/

/-- Result of `_analyze_presentation` in src/core.py: the detected
presentation kind with its payload (`data`) and reported dimensions. -/
inductive PresentationInfo
  | sozi (width height : Nat) (frameIds : List String)
  | jessyink (width height : Nat) (effectCounts : List Nat)
  | unknown
deriving DecidableEq, Repr

/-- The JessyInk step hash `f"#{slide_idx + 1}_{effect_step}"` with the
slide number already 1-based. -/
def stepHash (slide effect : Nat) : String :=
  "#" ++ toString slide ++ "_" ++ toString effect

/-- The JessyInk branch of `_generate_steps`: the nested
`for slide_idx, effect_count in enumerate(data): for effect_step in
range(effect_count + 1)` loop, with `slideIdx` as the enumeration index. -/
def jessyinkSteps : List Nat → Nat → List String
  | [], _ => []
  | e :: rest, slideIdx =>
      ((List.range (e + 1)).map (fun effectStep => stepHash (slideIdx + 1) effectStep))
        ++ jessyinkSteps rest (slideIdx + 1)

/-- `_generate_steps(info)` from src/core.py. -/
def generateSteps : PresentationInfo → List String
  | .sozi _ _ frameIds => frameIds.map (fun frameId => "#" ++ frameId)
  | .jessyink _ _ effectCounts => jessyinkSteps effectCounts 0
  | .unknown => []

/-- Zero-padded numeral of width 4, mirroring the Python format
`f"{current:04d}"` used for temporary image file names. -/
def pad4 (n : Nat) : String :=
  let s := toString n
  String.mk (List.replicate (4 - s.length) '0') ++ s

/-- Temporary screenshot file name for 1-based step `current`:
`f"{current:04d}.png"`. -/
def imgName (current : Nat) : String :=
  pad4 current ++ ".png"

/-- The per-step progress message `f"Capturando {current}/{total}"`. -/
def capturingMsg (current total : Nat) : String :=
  "Capturando " ++ toString current ++ "/" ++ toString total

/-- Observable effects of `convert_presentation`, in program order.
`loadPage` is the initial `page.goto(file_url)`; `gotoStep` is the per-step
`page.goto(f"{file_url}{step_hash}")`; `openOutput` is
`open(output_path, "wb")` (which truncates/creates the target);
`assembleCall` is `img2pdf.convert(...)`; `closeBrowser` is the `finally:`
clause; `stopPlaywright` is the exit of `async with async_playwright()`. -/
inductive Event
  | progress (current total : Nat) (msg : String)
  | launchBrowser
  | newContext (deviceScaleFactor : Nat)
  | loadPage
  | waitNetworkIdle
  | analyze
  | addStyleTag
  | setViewport (width height : Nat)
  | gotoStep (hash : String)
  | reloadPage
  | sleepDelay
  | screenshot (name : String)
  | openOutput
  | assembleCall
  | writeOutput
  | closeBrowser
  | stopPlaywright
deriving DecidableEq, Repr

/-- Exceptions `convert_presentation` can raise: environment/session
start-up failure, initial page-load failure, the `ValueError` for an
unrecognized presentation, a per-step navigation/capture failure (with the
1-based step number), the `RuntimeError` for zero images, and a failure
inside `img2pdf.convert`. -/
inductive ConvError
  | environmentError
  | loadError
  | unsupported
  | captureFailure (step : Nat)
  | emptyOutput
  | assembleError
deriving DecidableEq, Repr

/-- State of the target output location: no file, a file truncated by
`open(output_path, "wb")` whose full content was never written, or a
complete paginated document (one page per captured image, in order). -/
inductive OutputState
  | absent
  | truncated
  | doc (pages : List String)
deriving DecidableEq, Repr

/-- Outcome of each effectful operation of one conversion job: whether the
browser launches, whether context/page creation succeeds, whether the
initial load succeeds, which (0-based) steps fail during
navigation/capture, and whether `img2pdf.convert` succeeds. -/
structure Env where
  launchOk : Bool
  sessionOk : Bool
  loadOk : Bool
  stepFails : Nat → Bool
  assembleOk : Bool

/-- The environment in which every effectful operation succeeds. -/
def okEnv : Env :=
  { launchOk := true, sessionOk := true, loadOk := true,
    stepFails := fun _ => false, assembleOk := true }

/-- Result of one run of `convert_presentation`: the emitted event trace,
the returned value or raised exception, and the final state of the output
location. -/
structure RunResult where
  trace : List Event
  result : Except ConvError Unit
  output : OutputState

/-- The capture loop `for idx, step_hash in enumerate(steps)` of
`convert_presentation`: report progress, navigate to the step hash (which
may raise), reload, sleep the transition delay, take the screenshot, and
accumulate the image file name. Returns the emitted events and either the
ordered image file list or the first raised exception. -/
def runSteps (env : Env) (total : Nat) :
    List String → Nat → List Event × Except ConvError (List String)
  | [], _ => ([], .ok [])
  | sHash :: rest, idx =>
      let current := idx + 1
      let pre := [Event.progress current total (capturingMsg current total),
                  Event.gotoStep sHash]
      if env.stepFails idx then
        (pre, .error (.captureFailure current))
      else
        let pre := pre ++ [Event.reloadPage, Event.sleepDelay,
          Event.screenshot (imgName current)]
        match runSteps env total rest (idx + 1) with
        | (tr, .error e) => (pre ++ tr, .error e)
        | (tr, .ok names) => (pre ++ tr, .ok (imgName current :: names))

/-- The Sozi-only chrome suppression (`page.add_style_tag`). -/
def soziChrome : PresentationInfo → List Event
  | .sozi _ _ _ => [Event.addStyleTag]
  | _ => []

/-- Reported intrinsic width of the analyzed presentation. -/
def infoWidth : PresentationInfo → Nat
  | .sozi w _ _ => w
  | .jessyink w _ _ => w
  | .unknown => 0

/-- Reported intrinsic height of the analyzed presentation. -/
def infoHeight : PresentationInfo → Nat
  | .sozi _ h _ => h
  | .jessyink _ h _ => h
  | .unknown => 0

/-- `info["type"] != "unknown"`. -/
def supported : PresentationInfo → Bool
  | .unknown => false
  | _ => true

/-- The body of the `try:` block of `convert_presentation` (src/core.py
lines 60-110): initial progress report, load, network-idle wait, analysis,
unknown check, Sozi chrome suppression, viewport resize, step generation,
the capture loop, the final progress report, the empty-image check, and
the open/assemble/write of the output document. -/
def convertBody (info : PresentationInfo) (env : Env) (init : OutputState) :
    List Event × Except ConvError Unit × OutputState :=
  let pre := [Event.progress 0 0 "Cargando presentación...", Event.loadPage]
  if !env.loadOk then
    (pre, .error .loadError, init)
  else
    let pre := pre ++ [Event.waitNetworkIdle, Event.analyze]
    if info = .unknown then
      (pre, .error .unsupported, init)
    else
      let pre := pre ++ soziChrome info
        ++ [Event.setViewport (infoWidth info) (infoHeight info)]
      let steps := generateSteps info
      let total := steps.length
      match runSteps env total steps 0 with
      | (tr, .error e) => (pre ++ tr, .error e, init)
      | (tr, .ok imageFiles) =>
          let tr2 := tr ++ [Event.progress total total "Generando PDF..."]
          if imageFiles.isEmpty then
            (pre ++ tr2, .error .emptyOutput, init)
          else if env.assembleOk then
            (pre ++ tr2
               ++ [Event.openOutput, Event.assembleCall, Event.writeOutput],
             .ok (), .doc imageFiles)
          else
            (pre ++ tr2 ++ [Event.openOutput, Event.assembleCall],
             .error .assembleError, .truncated)

/-- `convert_presentation(file_path, output_path, quality, cb)` as a whole:
launch the browser and session (both before the `try:`), run the body,
always run the `finally: await browser.close()` once the `try:` was
entered, and always stop Playwright when the `async with` exits. -/
def convertPresentation (info : PresentationInfo) (quality : Nat) (env : Env)
    (init : OutputState) : RunResult :=
  if !env.launchOk then
    ⟨[Event.stopPlaywright], .error .environmentError, init⟩
  else if !env.sessionOk then
    ⟨[Event.launchBrowser, Event.newContext quality, Event.stopPlaywright],
     .error .environmentError, init⟩
  else
    let b := convertBody info env init
    ⟨Event.launchBrowser :: Event.newContext quality ::
       (b.1 ++ [Event.closeBrowser, Event.stopPlaywright]),
     b.2.1, b.2.2⟩

/-- The `(current, total)` arguments of the progress-sink invocations of a
trace, in order. -/
def progressPairs (tr : List Event) : List (Nat × Nat) :=
  tr.filterMap (fun e => match e with
    | .progress c t _ => some (c, t)
    | _ => none)

/-- The per-step navigation addresses of a trace, in order. -/
def stepAddresses (tr : List Event) : List String :=
  tr.filterMap (fun e => match e with
    | .gotoStep s => some s
    | _ => none)

/-- Events that belong to capture or output production: per-step
navigation, reload, screenshot, and any touch of the output location. -/
def isCaptureEvent : Event → Bool
  | .gotoStep _ => true
  | .reloadPage => true
  | .screenshot _ => true
  | .openOutput => true
  | .assembleCall => true
  | .writeOutput => true
  | _ => false

/-- Terminal output of the batch loop in src/cli.py: the no-files notice,
the batch header, and per file the processing line, then either the saved
line or the caught-and-reported error line, then the separator. -/
inductive CliEvent
  | noFiles
  | header (count : Nat)
  | processing (name : String)
  | saved (name : String)
  | convError (name : String) (msg : String)
  | separator
deriving DecidableEq, Repr

/-- One iteration of the `for input_file in files_to_process` loop of
`process_files`: print the processing line, try the conversion (its
outcome injected as the file's `Except` component; `except Exception`
catches a raised error and reports it), then print the separator. -/
def perFile (f : String × Except String Unit) : List CliEvent :=
  CliEvent.processing f.1 ::
    ((match f.2 with
      | .ok _ => [CliEvent.saved f.1]
      | .error e => [CliEvent.convError f.1 e]) ++ [CliEvent.separator])

/-- `process_files` from src/cli.py over the already-discovered list of
recognized files, each paired with its conversion outcome. -/
def processFiles (files : List (String × Except String Unit)) :
    List CliEvent :=
  if files.isEmpty then [CliEvent.noFiles]
  else CliEvent.header files.length :: files.flatMap perFile

/-- The processing-line names of a CLI event list, in order. -/
def processingName : CliEvent → Option String
  | .processing n => some n
  | _ => none

/-- The three normal-termination paths of `main` in src/cli.py: no path
arguments (`parser.print_help(); sys.exit(0)`), normal batch completion
(falling off the end of `main`), and `KeyboardInterrupt`
(`sys.exit(0)`). -/
inductive MainMode
  | noPathArgs
  | completedBatch
  | interruptedByUser
deriving DecidableEq, Repr

/-- Process exit code of each normal-termination path of `main`. -/
def mainExitCode : MainMode → Nat
  | .noPathArgs => 0
  | .completedBatch => 0
  | .interruptedByUser => 0

theorem jessyinkSteps_length (counts : List Nat) (s : Nat) :
    (jessyinkSteps counts s).length = counts.sum + counts.length := by
  induction counts generalizing s with
  | nil => simp [jessyinkSteps]
  | cons e rest ih =>
      simp [jessyinkSteps, ih]
      omega

theorem jessyinkSteps_eq_flatMap (counts : List Nat) (s : Nat) :
    jessyinkSteps counts s =
      (List.range counts.length).flatMap
        (fun i => (List.range (counts.getD i 0 + 1)).map
          (fun j => stepHash (s + i + 1) j)) := by
  induction counts generalizing s with
  | nil => simp [jessyinkSteps]
  | cons e rest ih =>
      rw [jessyinkSteps, ih (s + 1)]
      conv_rhs => rw [List.length_cons, List.range_succ_eq_map,
        List.flatMap_cons, List.flatMap_map]
      simp only [List.getD_cons_zero, List.getD_cons_succ, Nat.add_zero,
        Nat.succ_eq_add_one]
      congr 1
      have hfun :
          (fun i => List.map (fun j => stepHash (s + 1 + i + 1) j)
            (List.range (rest.getD i 0 + 1)))
          = (fun i => List.map (fun j => stepHash (s + (i + 1) + 1) j)
            (List.range (rest.getD i 0 + 1))) := by
        funext i
        have hs : s + 1 + i + 1 = s + (i + 1) + 1 := by omega
        rw [hs]
      rw [hfun]

theorem runSteps_ok (env : Env) (total : Nat) (steps : List String)
    (idx : Nat) (hok : ∀ i, env.stepFails i = false) :
    runSteps env total steps idx =
      ((List.range steps.length).flatMap (fun i =>
        [Event.progress (idx + i + 1) total (capturingMsg (idx + i + 1) total),
         Event.gotoStep (steps.getD i ""),
         Event.reloadPage, Event.sleepDelay,
         Event.screenshot (imgName (idx + i + 1))]),
       .ok ((List.range steps.length).map (fun i => imgName (idx + i + 1)))) := by
  induction steps generalizing idx with
  | nil => simp [runSteps]
  | cons sHash rest ih =>
      rw [runSteps]
      simp only [hok idx, Bool.false_eq_true, if_false]
      rw [ih (idx + 1)]
      conv_rhs => rw [List.length_cons, List.range_succ_eq_map,
        List.flatMap_cons, List.flatMap_map, List.map_cons, List.map_map]
      simp only [List.getD_cons_zero, List.getD_cons_succ, Nat.add_zero,
        Nat.succ_eq_add_one]
      rw [Prod.mk.injEq]
      refine ⟨?_, ?_⟩
      · have hfun :
            (fun i => [Event.progress (idx + 1 + i + 1) total
                (capturingMsg (idx + 1 + i + 1) total),
              Event.gotoStep (rest.getD i ""), Event.reloadPage,
              Event.sleepDelay, Event.screenshot (imgName (idx + 1 + i + 1))])
            = (fun i => [Event.progress (idx + (i + 1) + 1) total
                (capturingMsg (idx + (i + 1) + 1) total),
              Event.gotoStep (rest.getD i ""), Event.reloadPage,
              Event.sleepDelay, Event.screenshot (imgName (idx + (i + 1) + 1))]) := by
          funext i
          have hs : idx + 1 + i + 1 = idx + (i + 1) + 1 := by omega
          rw [hs]
        rw [hfun]
        simp
      · have hmap :
            ((fun i => imgName (idx + i + 1)) ∘ Nat.succ)
            = (fun i => imgName (idx + 1 + i + 1)) := by
          funext i
          have hs : idx + Nat.succ i + 1 = idx + 1 + i + 1 := by omega
          simp only [Function.comp_apply, hs]
        rw [hmap]

theorem generateSteps_jessyink_length (w h : Nat) (counts : List Nat) :
    (generateSteps (.jessyink w h counts)).length
      = counts.sum + counts.length := by
  simpa [generateSteps] using jessyinkSteps_length counts 0

/-- C1: for `BuildStepBased` (JessyInk) metadata with per-slide effect
counts `[e1, …, ek]`, the planner returns `sum ei + k` steps, slide-major
and effect-minor: slide `s = i + 1` (1-based) with effect count `e`
contributes the addresses for effect steps `0, 1, …, e`, across slides in
ascending order. -/
theorem buildStepBased_plan_correct (w h : Nat) (counts : List Nat) :
    (generateSteps (.jessyink w h counts)).length
        = counts.sum + counts.length ∧
    generateSteps (.jessyink w h counts) =
      (List.range counts.length).flatMap
        (fun i => (List.range (counts.getD i 0 + 1)).map
          (fun j => stepHash (i + 1) j)) := by
  refine ⟨generateSteps_jessyink_length w h counts, ?_⟩
  have h0 := jessyinkSteps_eq_flatMap counts 0
  simpa [generateSteps] using h0

/-- C2: for `FrameBased` (Sozi) metadata with `n` frame identifiers, the
planner returns exactly `n` steps, in the identifiers' order, each step's
navigation address being the `#`-fragment of that frame identifier. -/
theorem frameBased_plan_correct (w h : Nat) (ids : List String) :
    (generateSteps (.sozi w h ids)).length = ids.length ∧
    ∀ i, i < ids.length →
      (generateSteps (.sozi w h ids)).getD i "" = "#" ++ ids.getD i "" := by
  refine ⟨by simp [generateSteps], ?_⟩
  intro i hi
  simp [generateSteps, List.getD_eq_getElem?_getD, List.getElem?_map,
    List.getElem?_eq_getElem hi]

theorem frameBased_plan_correct_witness :
    (generateSteps (.sozi 1024 768 ["intro", "body", "end"])).length = 3 ∧
    (generateSteps (.sozi 1024 768 ["intro", "body", "end"])).getD 1 ""
      = "#body" := by
  refine ⟨(frameBased_plan_correct 1024 768 ["intro", "body", "end"]).1, ?_⟩
  have h := (frameBased_plan_correct 1024 768 ["intro", "body", "end"]).2 1
    (by decide)
  rw [h]
  decide

/-- C3: when analysis reports an unknown presentation, the planner returns
the empty step sequence, and `convert_presentation` raises the
unsupported-presentation error with the output location untouched and no
capture event (step navigation, reload, screenshot, output open/assemble/
write) ever emitted. -/
theorem unknown_fails_fast (quality : Nat) (env : Env) (init : OutputState)
    (h1 : env.launchOk = true) (h2 : env.sessionOk = true)
    (h3 : env.loadOk = true) :
    generateSteps .unknown = [] ∧
    (convertPresentation .unknown quality env init).result
        = .error .unsupported ∧
    (convertPresentation .unknown quality env init).output = init ∧
    ∀ e ∈ (convertPresentation .unknown quality env init).trace,
      isCaptureEvent e = false := by
  refine ⟨rfl, ?_, ?_, ?_⟩ <;>
    simp only [convertPresentation, convertBody, h1, h2, h3,
      Bool.not_true, Bool.false_eq_true, if_false, if_true]
  intro e he
  simp only [List.mem_cons, List.mem_append, List.mem_singleton,
    List.not_mem_nil, or_false, or_assoc] at he
  rcases he with h | h | h | h | h | h | h | h <;> subst h <;> rfl

theorem unknown_fails_fast_witness :
    okEnv.launchOk = true ∧ okEnv.sessionOk = true ∧ okEnv.loadOk = true ∧
    (convertPresentation .unknown 4 okEnv .absent).result
      = .error .unsupported ∧
    (convertPresentation .unknown 4 okEnv .absent).output = .absent :=
  ⟨rfl, rfl, rfl, (unknown_fails_fast 4 okEnv .absent rfl rfl rfl).2.1,
    (unknown_fails_fast 4 okEnv .absent rfl rfl rfl).2.2.1⟩

/-- C7: when the plan is empty (for instance a `FrameBased` document with
zero declared frames), assembly receives zero artifacts, the conversion
raises the empty-output error, and the output location is never opened,
written, or changed. -/
theorem emptyPlan_fails (info : PresentationInfo) (quality : Nat) (env : Env)
    (init : OutputState) (hsup : supported info = true)
    (hplan : generateSteps info = [])
    (h1 : env.launchOk = true) (h2 : env.sessionOk = true)
    (h3 : env.loadOk = true) :
    (convertPresentation info quality env init).result = .error .emptyOutput ∧
    (convertPresentation info quality env init).output = init ∧
    Event.openOutput ∉ (convertPresentation info quality env init).trace ∧
    Event.writeOutput ∉ (convertPresentation info quality env init).trace := by
  cases info with
  | unknown => simp [supported] at hsup
  | sozi w h ids =>
      refine ⟨?_, ?_, ?_, ?_⟩ <;>
        simp [convertPresentation, convertBody, h1, h2, h3, hplan, runSteps,
          soziChrome]
  | jessyink w h counts =>
      refine ⟨?_, ?_, ?_, ?_⟩ <;>
        simp [convertPresentation, convertBody, h1, h2, h3, hplan, runSteps,
          soziChrome]

theorem emptyPlan_fails_witness :
    supported (.sozi 1024 768 []) = true ∧
    generateSteps (.sozi 1024 768 []) = [] ∧
    (convertPresentation (.sozi 1024 768 []) 4 okEnv .absent).result
      = .error .emptyOutput ∧
    (convertPresentation (.sozi 1024 768 []) 4 okEnv .absent).output
      = .absent :=
  ⟨rfl, rfl,
    (emptyPlan_fails (.sozi 1024 768 []) 4 okEnv .absent rfl rfl rfl rfl
      rfl).1,
    (emptyPlan_fails (.sozi 1024 768 []) 4 okEnv .absent rfl rfl rfl rfl
      rfl).2.1⟩

/-- C8: the rendering session is released on every exit path: the trace of
every run ends with the Playwright shutdown (the `async with` exit), and
whenever the browser was launched and the session created (the `try:` was
entered), the `finally: await browser.close()` also appears in the trace,
on success and on every exception alike. -/
theorem session_released (info : PresentationInfo) (quality : Nat)
    (env : Env) (init : OutputState) :
    (convertPresentation info quality env init).trace.getLast?
        = some Event.stopPlaywright ∧
    (env.launchOk = true → env.sessionOk = true →
      Event.closeBrowser ∈ (convertPresentation info quality env init).trace) := by
  unfold convertPresentation
  cases hl : env.launchOk with
  | false => simp
  | true =>
      cases hs : env.sessionOk with
      | false => simp
      | true =>
          refine ⟨?_, fun _ _ => by simp⟩
          have hsplit :
              (Event.launchBrowser :: Event.newContext quality ::
                ((convertBody info env init).1
                  ++ [Event.closeBrowser, Event.stopPlaywright]))
              = (Event.launchBrowser :: Event.newContext quality ::
                  ((convertBody info env init).1 ++ [Event.closeBrowser]))
                ++ [Event.stopPlaywright] := by
            simp
          simp only [Bool.not_true, Bool.false_eq_true, if_false, hsplit,
            List.getLast?_concat]

theorem session_released_witness :
    (convertPresentation .unknown 4 okEnv .absent).trace.getLast?
        = some Event.stopPlaywright ∧
    Event.closeBrowser ∈ (convertPresentation .unknown 4 okEnv .absent).trace :=
  ⟨(session_released .unknown 4 okEnv .absent).1,
    (session_released .unknown 4 okEnv .absent).2 rfl rfl⟩

/-- C4: refuted by the code. When `img2pdf.convert` raises after every
capture succeeded, `open(output_path, "wb")` has already truncated/created
the file at the output location, so the failing conversion leaves an empty
file there instead of leaving the location unchanged. Evaluated at a
one-step JessyInk document with nothing previously at the output
location. -/
theorem assembleFailure_leaves_truncated_output :
    (convertPresentation (.jessyink 1024 768 [0]) 4
        { okEnv with assembleOk := false } .absent).result
      = .error .assembleError ∧
    (convertPresentation (.jessyink 1024 768 [0]) 4
        { okEnv with assembleOk := false } .absent).output
      = .truncated ∧
    OutputState.truncated ≠ OutputState.absent :=
  ⟨rfl, rfl, by decide⟩

/-- C5 as stated is false: in the run on a one-step JessyInk document where
every operation succeeds, the step's progress report is emitted strictly
before the step's navigation/capture work, not after it — its position in
the trace precedes the step's screenshot, and each of the two events occurs
exactly once. -/
theorem progress_reported_before_capture :
    ((convertPresentation (.jessyink 1024 768 [0]) 4 okEnv .absent).trace.indexOf
        (Event.progress 1 1 (capturingMsg 1 1))
      < (convertPresentation (.jessyink 1024 768 [0]) 4 okEnv
          .absent).trace.indexOf (Event.screenshot (imgName 1)))
    ∧ (convertPresentation (.jessyink 1024 768 [0]) 4 okEnv .absent).trace.count
        (Event.progress 1 1 (capturingMsg 1 1)) = 1
    ∧ (convertPresentation (.jessyink 1024 768 [0]) 4 okEnv .absent).trace.count
        (Event.screenshot (imgName 1)) = 1
    ∧ (convertPresentation (.jessyink 1024 768 [0]) 4 okEnv .absent).result
        = .ok () := by
  refine ⟨by decide, by decide, by decide, rfl⟩

theorem convertPresentation_ok_run (info : PresentationInfo) (quality : Nat)
    (env : Env) (init : OutputState) (hsup : supported info = true)
    (h1 : env.launchOk = true) (h2 : env.sessionOk = true)
    (h3 : env.loadOk = true) (hok : ∀ i, env.stepFails i = false)
    (hA : env.assembleOk = true) (hne : generateSteps info ≠ []) :
    convertPresentation info quality env init =
      ⟨[Event.launchBrowser, Event.newContext quality,
        Event.progress 0 0 "Cargando presentación...", Event.loadPage,
        Event.waitNetworkIdle, Event.analyze]
        ++ soziChrome info
        ++ [Event.setViewport (infoWidth info) (infoHeight info)]
        ++ (List.range (generateSteps info).length).flatMap (fun i =>
            [Event.progress (i + 1) (generateSteps info).length
               (capturingMsg (i + 1) (generateSteps info).length),
             Event.gotoStep ((generateSteps info).getD i ""),
             Event.reloadPage, Event.sleepDelay,
             Event.screenshot (imgName (i + 1))])
        ++ [Event.progress (generateSteps info).length
              (generateSteps info).length "Generando PDF...",
            Event.openOutput, Event.assembleCall, Event.writeOutput,
            Event.closeBrowser, Event.stopPlaywright],
       .ok (),
       .doc ((List.range (generateSteps info).length).map
         (fun i => imgName (i + 1)))⟩ := by
  have hunk : ¬(info = PresentationInfo.unknown) := by
    cases info <;> simp_all [supported]
  have hlen : (generateSteps info).length ≠ 0 := by
    intro h0
    exact hne (List.eq_nil_of_length_eq_zero h0)
  unfold convertPresentation convertBody
  simp only [h1, h2, h3, Bool.not_true, Bool.false_eq_true, if_false,
    if_neg hunk]
  rw [runSteps_ok env (generateSteps info).length (generateSteps info) 0 hok]
  simp only [Nat.zero_add, hA, if_true, List.isEmpty_eq_true,
    List.map_eq_nil_iff, List.range_eq_nil, hlen, if_false,
    List.append_assoc, List.cons_append, List.nil_append,
    List.singleton_append]

/-- C5 (amended): for every planned capture step, the orchestrator reports
that step's progress to the progress sink BEFORE performing the step's
work — the successful run's trace consists, for each step `i`, of the
block progress report, navigation, reload, settle wait, screenshot, in
that order, between the fixed loading prefix and assembly suffix. -/
theorem progress_precedes_each_step (info : PresentationInfo) (quality : Nat)
    (env : Env) (init : OutputState) (hsup : supported info = true)
    (h1 : env.launchOk = true) (h2 : env.sessionOk = true)
    (h3 : env.loadOk = true) (hok : ∀ i, env.stepFails i = false)
    (hA : env.assembleOk = true) (hne : generateSteps info ≠ []) :
    (convertPresentation info quality env init).trace =
      [Event.launchBrowser, Event.newContext quality,
        Event.progress 0 0 "Cargando presentación...", Event.loadPage,
        Event.waitNetworkIdle, Event.analyze]
        ++ soziChrome info
        ++ [Event.setViewport (infoWidth info) (infoHeight info)]
        ++ (List.range (generateSteps info).length).flatMap (fun i =>
            [Event.progress (i + 1) (generateSteps info).length
               (capturingMsg (i + 1) (generateSteps info).length),
             Event.gotoStep ((generateSteps info).getD i ""),
             Event.reloadPage, Event.sleepDelay,
             Event.screenshot (imgName (i + 1))])
        ++ [Event.progress (generateSteps info).length
              (generateSteps info).length "Generando PDF...",
            Event.openOutput, Event.assembleCall, Event.writeOutput,
            Event.closeBrowser, Event.stopPlaywright] := by
  rw [convertPresentation_ok_run info quality env init hsup h1 h2 h3 hok hA
    hne]

theorem progress_precedes_each_step_witness :
    supported (.jessyink 1024 768 [0]) = true ∧
    generateSteps (.jessyink 1024 768 [0]) ≠ [] ∧
    (convertPresentation (.jessyink 1024 768 [0]) 4 okEnv .absent).trace =
      [Event.launchBrowser, Event.newContext 4,
        Event.progress 0 0 "Cargando presentación...", Event.loadPage,
        Event.waitNetworkIdle, Event.analyze]
        ++ soziChrome (.jessyink 1024 768 [0])
        ++ [Event.setViewport 1024 768]
        ++ (List.range 1).flatMap (fun i =>
            [Event.progress (i + 1) 1 (capturingMsg (i + 1) 1),
             Event.gotoStep ((generateSteps (.jessyink 1024 768 [0])).getD i ""),
             Event.reloadPage, Event.sleepDelay,
             Event.screenshot (imgName (i + 1))])
        ++ [Event.progress 1 1 "Generando PDF...",
            Event.openOutput, Event.assembleCall, Event.writeOutput,
            Event.closeBrowser, Event.stopPlaywright] := by
  refine ⟨rfl, by decide, ?_⟩
  have h := progress_precedes_each_step (.jessyink 1024 768 [0]) 4 okEnv
    .absent rfl rfl rfl rfl (fun i => rfl) rfl (by decide)
  simpa using h

/-- C6: the quality scale has no effect on step planning or on the
produced document: for the same detected metadata and environment, two
runs that differ only in the quality value (each within `[1, 8]`) visit
exactly the same navigation addresses, return the same result, and leave
the output location in the same state (in particular the same page
count). -/
theorem quality_independent_of_planning (info : PresentationInfo)
    (q1 q2 : Nat) (env : Env) (init : OutputState)
    (hq1 : 1 ≤ q1 ∧ q1 ≤ 8) (hq2 : 1 ≤ q2 ∧ q2 ≤ 8) :
    stepAddresses (convertPresentation info q1 env init).trace
      = stepAddresses (convertPresentation info q2 env init).trace ∧
    (convertPresentation info q1 env init).result
      = (convertPresentation info q2 env init).result ∧
    (convertPresentation info q1 env init).output
      = (convertPresentation info q2 env init).output := by
  unfold convertPresentation
  cases env.launchOk with
  | false => exact ⟨rfl, rfl, rfl⟩
  | true =>
      cases env.sessionOk with
      | false => exact ⟨by simp [stepAddresses], rfl, rfl⟩
      | true => exact ⟨by simp [stepAddresses], rfl, rfl⟩

theorem quality_independent_of_planning_witness :
    (1 ≤ 1 ∧ 1 ≤ 8) ∧ (1 ≤ 8 ∧ 8 ≤ 8) ∧
    stepAddresses (convertPresentation (.jessyink 1024 768 [0, 2]) 1 okEnv
        .absent).trace
      = stepAddresses (convertPresentation (.jessyink 1024 768 [0, 2]) 8
          okEnv .absent).trace ∧
    (convertPresentation (.jessyink 1024 768 [0, 2]) 1 okEnv .absent).output
      = (convertPresentation (.jessyink 1024 768 [0, 2]) 8 okEnv
          .absent).output :=
  ⟨by decide, by decide,
    (quality_independent_of_planning (.jessyink 1024 768 [0, 2]) 1 8 okEnv
      .absent (by decide) (by decide)).1,
    (quality_independent_of_planning (.jessyink 1024 768 [0, 2]) 1 8 okEnv
      .absent (by decide) (by decide)).2.2⟩

theorem flatMap_singleton_map (l : List Nat) (f : Nat → Nat × Nat) :
    l.flatMap (fun i => [f i]) = l.map f := by
  induction l with
  | nil => rfl
  | cons a l ih => simp [List.flatMap_cons, ih]

/-- C10: with a plan of `n` steps and every operation succeeding, the
progress sink is invoked exactly `n + 2` times, in the fixed order
`(0, 0)` (loading), then `(i, n)` for `i = 1, …, n`, then `(n, n)`
(assembling); for `n = 0` the final invocation is therefore `(0, 0)`,
the indeterminate-phase signal. -/
theorem progress_sink_invocations (info : PresentationInfo) (quality : Nat)
    (env : Env) (init : OutputState) (hsup : supported info = true)
    (h1 : env.launchOk = true) (h2 : env.sessionOk = true)
    (h3 : env.loadOk = true) (hok : ∀ i, env.stepFails i = false) :
    progressPairs (convertPresentation info quality env init).trace
      = (0, 0) :: (((List.range (generateSteps info).length).map
          (fun i => (i + 1, (generateSteps info).length)))
        ++ [((generateSteps info).length, (generateSteps info).length)]) ∧
    (progressPairs (convertPresentation info quality env init).trace).length
      = (generateSteps info).length + 2 := by
  have hunk : ¬(info = PresentationInfo.unknown) := by
    cases info <;> simp_all [supported]
  have key :
      progressPairs (convertPresentation info quality env init).trace
        = (0, 0) :: (((List.range (generateSteps info).length).map
            (fun i => (i + 1, (generateSteps info).length)))
          ++ [((generateSteps info).length, (generateSteps info).length)]) := by
    unfold convertPresentation convertBody
    simp only [h1, h2, h3, Bool.not_true, Bool.false_eq_true, if_false,
      if_neg hunk]
    rw [runSteps_ok env (generateSteps info).length (generateSteps info) 0
      hok]
    simp only [Nat.zero_add]
    by_cases hn : (generateSteps info).length = 0
    · simp only [hn, List.range_zero, List.map_nil, List.isEmpty_nil,
        if_true, List.flatMap_nil]
      cases info with
      | unknown => exact absurd rfl hunk
      | sozi w h ids =>
          simp [progressPairs, List.filterMap_append, soziChrome, hn]
      | jessyink w h counts =>
          simp [progressPairs, List.filterMap_append, soziChrome, hn]
    · have hne : (List.map (fun i => imgName (i + 1))
          (List.range (generateSteps info).length)).isEmpty = false := by
        rw [List.isEmpty_eq_false]
        simp [List.map_eq_nil_iff, List.range_eq_nil, hn]
      rw [hne]
      simp only [Bool.false_eq_true, if_false]
      cases hA : env.assembleOk with
      | true =>
          simp only [if_true]
          cases info with
          | unknown => exact absurd rfl hunk
          | sozi w h ids =>
              simp [progressPairs, List.filterMap_append,
                List.filterMap_flatMap, soziChrome, flatMap_singleton_map]
          | jessyink w h counts =>
              simp [progressPairs, List.filterMap_append,
                List.filterMap_flatMap, soziChrome, flatMap_singleton_map]
      | false =>
          simp only [Bool.false_eq_true, if_false]
          cases info with
          | unknown => exact absurd rfl hunk
          | sozi w h ids =>
              simp [progressPairs, List.filterMap_append,
                List.filterMap_flatMap, soziChrome, flatMap_singleton_map]
          | jessyink w h counts =>
              simp [progressPairs, List.filterMap_append,
                List.filterMap_flatMap, soziChrome, flatMap_singleton_map]
  exact ⟨key, by rw [key]; simp⟩

theorem progress_sink_invocations_witness :
    supported (.jessyink 1024 768 [0, 2]) = true ∧
    progressPairs (convertPresentation (.jessyink 1024 768 [0, 2]) 4 okEnv
        .absent).trace
      = (0, 0) :: (((List.range 4).map (fun i => (i + 1, 4))) ++ [(4, 4)]) := by
  refine ⟨rfl, ?_⟩
  have h := (progress_sink_invocations (.jessyink 1024 768 [0, 2]) 4 okEnv
    .absent rfl rfl rfl rfl (fun i => rfl)).1
  rw [show (generateSteps (PresentationInfo.jessyink 1024 768 [0, 2])).length
    = 4 from rfl] at h
  exact h

theorem perFile_filterMap (files : List (String × Except String Unit)) :
    (files.flatMap perFile).filterMap processingName
      = files.map Prod.fst := by
  induction files with
  | nil => rfl
  | cons f rest ih =>
      rw [List.flatMap_cons, List.filterMap_append, ih]
      cases f with
      | mk name r =>
          cases r <;> rfl

/-- C9: in batch CLI mode every recognized file is processed in order even
when earlier conversions raise — a raised error is caught and reported as
that file's error line and the loop continues — and the process exit code
is 0 on every normal-termination path: no path arguments, normal batch
completion (including zero recognized files), and user interruption. -/
theorem batch_isolates_failures
    (files : List (String × Except String Unit)) :
    (processFiles files).filterMap processingName = files.map Prod.fst ∧
    (∀ f ∈ files, ∀ msg, f.2 = .error msg →
      CliEvent.convError f.1 msg ∈ processFiles files) ∧
    (∀ m : MainMode, mainExitCode m = 0) := by
  refine ⟨?_, ?_, fun m => by cases m <;> rfl⟩
  · cases files with
    | nil => rfl
    | cons f rest =>
        rw [processFiles]
        simp only [List.isEmpty_cons, Bool.false_eq_true, if_false]
        rw [show (CliEvent.header (f :: rest).length ::
            (f :: rest).flatMap perFile).filterMap processingName
          = ((f :: rest).flatMap perFile).filterMap processingName from rfl]
        exact perFile_filterMap (f :: rest)
  · intro f hf msg hmsg
    have hne : files.isEmpty = false := by
      cases files with
      | nil => exact absurd hf (List.not_mem_nil f)
      | cons g rest => rfl
    rw [processFiles, hne]
    simp only [Bool.false_eq_true, if_false, List.mem_cons]
    right
    rw [List.mem_flatMap]
    refine ⟨f, hf, ?_⟩
    rw [perFile, hmsg]
    simp

theorem batch_isolates_failures_witness :
    (processFiles [("a.svg", Except.error "boom"),
        ("b.svg", Except.ok ())]).filterMap processingName
      = ["a.svg", "b.svg"] ∧
    CliEvent.convError "a.svg" "boom"
      ∈ processFiles [("a.svg", Except.error "boom"),
          ("b.svg", Except.ok ())] ∧
    mainExitCode .interruptedByUser = 0 := by
  refine ⟨?_, ?_, ?_⟩
  · have h := (batch_isolates_failures [("a.svg", Except.error "boom"),
      ("b.svg", Except.ok ())]).1
    simpa using h
  · exact (batch_isolates_failures [("a.svg", Except.error "boom"),
      ("b.svg", Except.ok ())]).2.1 ("a.svg", Except.error "boom")
      (List.mem_cons_self _ _) "boom" rfl
  · exact (batch_isolates_failures []).2.2 .interruptedByUser
